import Mathlib

/-!
Shallow embedding of the balance-transfer exercise: the `users` table
(`id SERIAL PRIMARY KEY, name, email, balance DECIMAL(10,2)`) and the
`TransferBalance` function, translated from the Go source.

The relational store is a list of rows.  `DECIMAL(10,2)` arithmetic is
exact with two fractional digits, so balances and amounts are represented
exactly as integers (a count of cents); every operation the function
performs on money (comparison, addition, subtraction, summation) is
preserved by this representation.  The SQL client's failure points
(`Beginx`, `tx.Get`, the two `tx.Exec` updates, `tx.Commit`) are modelled by
a fault schedule: each step may be made to fail by the environment, in which
case the Go function returns the corresponding wrapped error and the
deferred `tx.Rollback()` discards the transaction's staged writes.
-/

/-- A row of the `users` table (Go struct `User`). -/
structure Account where
  id : Int
  name : String
  email : String
  balance : Int
deriving DecidableEq, Repr

/-- The relational store: the `users` relation. -/
abbrev Store := List Account

/-- `SELECT balance FROM users WHERE id = $1`: balance of the first row whose
`id` matches (by the primary key, at most one row matches). -/
def getBalance : Store → Int → Option Int
  | [], _ => none
  | u :: rest, i => if u.id = i then some u.balance else getBalance rest i

/-- `UPDATE users SET balance = balance - $1 WHERE id = $2`: row-wise update
of every matching row. -/
def decBalance (db : Store) (amount : Int) (id : Int) : Store :=
  db.map fun u => if u.id = id then { u with balance := u.balance - amount } else u

/-- `UPDATE users SET balance = balance + $1 WHERE id = $2`. -/
def incBalance (db : Store) (amount : Int) (id : Int) : Store :=
  db.map fun u => if u.id = id then { u with balance := u.balance + amount } else u

/-- The error values `TransferBalance` can return, one per `return`
statement carrying an error in the Go source.  `insufficientBalance`
carries the available and requested amounts, as the formatted Go error
message does. -/
inductive TransferError where
  | beginFailed
  | getSenderFailed
  | insufficientBalance (available requested : Int)
  | decreaseSenderFailed
  | increaseReceiverFailed
  | commitFailed
deriving DecidableEq, Repr

/-- Which of the SQL client calls fail in a given run (infrastructure
failures injected by the environment: lost connection, conflict, ...). -/
structure Fault where
  beginFails : Bool
  getFails : Bool
  decreaseFails : Bool
  increaseFails : Bool
  commitFails : Bool
deriving DecidableEq, Repr

/-- A run in which the SQL client reports no infrastructure failure. -/
def noFaults : Fault :=
  { beginFails := false, getFails := false, decreaseFails := false,
    increaseFails := false, commitFails := false }

/-- Translation of Go `TransferBalance(db, fromID, toID, amount)`.

The transaction stages its writes privately; the pair returned is the store
visible after the call (the staged writes if and only if `tx.Commit()`
succeeded, because `defer tx.Rollback()` discards them on every other exit
path) together with the error result.  `tx.Get` into a `float64` fails with
`sql.ErrNoRows` when no row matches, which the source wraps into its
"failed to get sender balance" error. -/
def TransferBalance (f : Fault) (db : Store) (fromID toID : Int) (amount : Int) :
    Store × Option TransferError :=
  if f.beginFails then (db, some TransferError.beginFailed)
  else if f.getFails then (db, some TransferError.getSenderFailed)
  else
    match getBalance db fromID with
    | none => (db, some TransferError.getSenderFailed)
    | some senderBalance =>
      if senderBalance < amount then
        (db, some (TransferError.insufficientBalance senderBalance amount))
      else if f.decreaseFails then (db, some TransferError.decreaseSenderFailed)
      else if f.increaseFails then (db, some TransferError.increaseReceiverFailed)
      else if f.commitFails then (db, some TransferError.commitFailed)
      else (incBalance (decBalance db amount fromID) amount toID, none)

/-- Sum of all balances in the store. -/
def totalBalance (db : Store) : Int := (db.map Account.balance).sum

/-- Every account balance in the store is non-negative (the spec's
consistency invariant). -/
def allNonneg (db : Store) : Prop := ∀ u ∈ db, 0 ≤ u.balance

instance (db : Store) : Decidable (allNonneg db) := by
  unfold allNonneg; infer_instance

/-- Reading a balance after a debit update: the looked-up row is debited
exactly when the looked-up id is the debited id. -/
theorem getBalance_decBalance (db : Store) (a : Int) (i j : Int) :
    getBalance (decBalance db a i) j =
      if j = i then (getBalance db j).map (fun b => b - a) else getBalance db j := by
  induction db with
  | nil => simp only [decBalance, List.map_nil, getBalance]; split <;> rfl
  | cons u rest ih =>
    simp only [decBalance, List.map_cons] at ih ⊢
    by_cases hui : u.id = i
    · by_cases huj : u.id = j
      · have hji : j = i := huj.symm.trans hui
        simp [getBalance, hui, huj, hji, ih]
      · have hji : ¬ j = i := fun h => huj (hui.trans h.symm)
        have hij : ¬ i = j := fun h => hji h.symm
        simp [getBalance, hui, huj, hji, hij, ih]
    · by_cases huj : u.id = j
      · have hji : ¬ j = i := fun h => hui (huj.trans h)
        simp [getBalance, hui, huj, hji, ih]
      · simp [getBalance, hui, huj, ih]

/-- Reading a balance after a credit update. -/
theorem getBalance_incBalance (db : Store) (a : Int) (i j : Int) :
    getBalance (incBalance db a i) j =
      if j = i then (getBalance db j).map (fun b => b + a) else getBalance db j := by
  induction db with
  | nil => simp only [incBalance, List.map_nil, getBalance]; split <;> rfl
  | cons u rest ih =>
    simp only [incBalance, List.map_cons] at ih ⊢
    by_cases hui : u.id = i
    · by_cases huj : u.id = j
      · have hji : j = i := huj.symm.trans hui
        simp [getBalance, hui, huj, hji, ih]
      · have hji : ¬ j = i := fun h => huj (hui.trans h.symm)
        have hij : ¬ i = j := fun h => hji h.symm
        simp [getBalance, hui, huj, hji, hij, ih]
    · by_cases huj : u.id = j
      · have hji : ¬ j = i := fun h => hui (huj.trans h)
        simp [getBalance, hui, huj, hji, ih]
      · simp [getBalance, hui, huj, ih]

/-- A debit whose `WHERE id` clause matches no row leaves the store as it was. -/
theorem decBalance_not_found (db : Store) (a : Int) (i : Int)
    (h : ∀ u ∈ db, u.id ≠ i) : decBalance db a i = db := by
  induction db with
  | nil => rfl
  | cons u rest ih =>
    simp only [decBalance, List.map_cons]
    have hu : u.id ≠ i := h u (List.mem_cons_self u rest)
    rw [if_neg hu]
    have := ih (fun v hv => h v (List.mem_cons_of_mem u hv))
    simp only [decBalance] at this
    rw [this]

/-- A credit whose `WHERE id` clause matches no row leaves the store as it was. -/
theorem incBalance_not_found (db : Store) (a : Int) (i : Int)
    (h : ∀ u ∈ db, u.id ≠ i) : incBalance db a i = db := by
  induction db with
  | nil => rfl
  | cons u rest ih =>
    simp only [incBalance, List.map_cons]
    have hu : u.id ≠ i := h u (List.mem_cons_self u rest)
    rw [if_neg hu]
    have := ih (fun v hv => h v (List.mem_cons_of_mem u hv))
    simp only [incBalance] at this
    rw [this]

/-- Debiting and then crediting the same id by the same amount is the
identity on the store. -/
theorem incBalance_decBalance_cancel (db : Store) (a : Int) (i : Int) :
    incBalance (decBalance db a i) a i = db := by
  induction db with
  | nil => rfl
  | cons u rest ih =>
    simp only [decBalance, incBalance, List.map_cons] at ih ⊢
    by_cases hui : u.id = i
    · cases u with
      | mk uid uname uemail ubal => simp_all
    · simp [hui, ih]

/-- `getBalance` returns `none` exactly when no row has the requested id. -/
theorem getBalance_eq_none_iff (db : Store) (i : Int) :
    getBalance db i = none ↔ ∀ u ∈ db, u.id ≠ i := by
  induction db with
  | nil => simp [getBalance]
  | cons u rest ih =>
    by_cases hui : u.id = i
    · simp [getBalance, hui]
    · simp [getBalance, hui, ih]

/-- With no duplicate ids (the primary-key constraint on `users.id`), the
balance read for a member row's id is that row's balance. -/
theorem getBalance_of_mem_nodup (db : Store) (u : Account)
    (hnd : (db.map Account.id).Nodup) (hmem : u ∈ db) :
    getBalance db u.id = some u.balance := by
  induction db with
  | nil => cases hmem
  | cons v rest ih =>
    rcases List.mem_cons.1 hmem with huv | hmem2
    · subst huv
      simp [getBalance]
    · have hvne : v.id ≠ u.id := by
        intro h
        have : u.id ∈ rest.map Account.id := List.mem_map_of_mem Account.id hmem2
        rw [List.map_cons, List.nodup_cons] at hnd
        exact hnd.1 (h ▸ this)
      have hnd2 : (rest.map Account.id).Nodup := by
        rw [List.map_cons, List.nodup_cons] at hnd
        exact hnd.2
      simp [getBalance, hvne, ih hnd2 hmem2]

/-- With no duplicate ids, debiting an id present in the store lowers the
total of all balances by exactly the debited amount. -/
theorem totalBalance_decBalance (db : Store) (a : Int) (i : Int)
    (hnd : (db.map Account.id).Nodup) (hmem : ∃ u ∈ db, u.id = i) :
    totalBalance (decBalance db a i) = totalBalance db - a := by
  induction db with
  | nil => simp at hmem
  | cons u rest ih =>
    rw [List.map_cons, List.nodup_cons] at hnd
    simp only [decBalance, totalBalance, List.map_cons, List.sum_cons] at ih ⊢
    by_cases hui : u.id = i
    · have hrest : ∀ v ∈ rest, v.id ≠ i := by
        intro v hv h
        exact hnd.1 (hui ▸ h ▸ List.mem_map_of_mem Account.id hv)
      have := decBalance_not_found rest a i hrest
      simp only [decBalance] at this
      rw [if_pos hui, this]
      simp
      ring
    · rcases hmem with ⟨v, hv, hvi⟩
      rcases List.mem_cons.1 hv with rfl | hv2
      · exact absurd hvi hui
      · have := ih hnd.2 ⟨v, hv2, hvi⟩
        rw [if_neg hui, this]
        ring

/-- Every exit path of `TransferBalance` that returns an error leaves the
store exactly as it was: the deferred `tx.Rollback()` discards all staged
writes. -/
theorem TransferBalance_rollback (f : Fault) (db : Store) (fromID toID : Int)
    (amount : Int) (h : (TransferBalance f db fromID toID amount).2 ≠ none) :
    (TransferBalance f db fromID toID amount).1 = db := by
  unfold TransferBalance at h ⊢
  repeat' split
  all_goals simp_all

/-- A successful `TransferBalance` run read a sufficient sender balance and
committed exactly the debit followed by the credit. -/
theorem TransferBalance_success (f : Fault) (db : Store) (fromID toID : Int)
    (amount : Int) (h : (TransferBalance f db fromID toID amount).2 = none) :
    ∃ sb, getBalance db fromID = some sb ∧ amount ≤ sb ∧
      (TransferBalance f db fromID toID amount).1
        = incBalance (decBalance db amount fromID) amount toID := by
  unfold TransferBalance at h ⊢
  repeat' split
  all_goals simp_all

/-- C1: as frozen the claim quantifies over every pair of existing accounts,
including `source = destination`; there the code's debit-then-credit of the
same row nets to zero, so the claimed post-balances `source - amount` and
`destination + amount` are both violated.  Concrete input: one account with
id 1 and balance 10, `TransferBalance(1, 1, 5)`. -/
theorem transfer_c1_cex :
    ¬ (∀ (db : Store) (fromID toID amount sb tb : Int),
        getBalance db fromID = some sb → getBalance db toID = some tb →
        amount ≤ sb →
        (TransferBalance noFaults db fromID toID amount).2 = none ∧
        getBalance (TransferBalance noFaults db fromID toID amount).1 fromID
          = some (sb - amount) ∧
        getBalance (TransferBalance noFaults db fromID toID amount).1 toID
          = some (tb + amount) ∧
        (sb - amount) + (tb + amount) = sb + tb) := by
  intro h
  have := (h [⟨1, "A", "a", 10⟩] 1 1 5 10 10 (by decide) (by decide) (by decide)).2.1
  exact absurd this (by decide)

/-- C1 (amended with `source ≠ destination`): when distinct source and
destination accounts exist and the source balance covers the amount, the
call succeeds, the source is debited, the destination is credited, and the
two-account sum is conserved. -/
theorem transfer_c1_amended (db : Store) (fromID toID : Int) (amount sb tb : Int)
    (hne : fromID ≠ toID)
    (hfrom : getBalance db fromID = some sb)
    (hto : getBalance db toID = some tb)
    (hsuff : amount ≤ sb) :
    (TransferBalance noFaults db fromID toID amount).2 = none ∧
    getBalance (TransferBalance noFaults db fromID toID amount).1 fromID
      = some (sb - amount) ∧
    getBalance (TransferBalance noFaults db fromID toID amount).1 toID
      = some (tb + amount) ∧
    (sb - amount) + (tb + amount) = sb + tb := by
  have hres : TransferBalance noFaults db fromID toID amount
      = (incBalance (decBalance db amount fromID) amount toID, none) := by
    simp [TransferBalance, noFaults, hfrom, not_lt.2 hsuff]
  have hnts : ¬ toID = fromID := fun h => hne h.symm
  refine ⟨by rw [hres], ?_, ?_, by ring⟩
  · rw [hres]
    show getBalance (incBalance (decBalance db amount fromID) amount toID) fromID
      = some (sb - amount)
    rw [getBalance_incBalance, if_neg hne, getBalance_decBalance, if_pos rfl, hfrom]
    rfl
  · rw [hres]
    show getBalance (incBalance (decBalance db amount fromID) amount toID) toID
      = some (tb + amount)
    rw [getBalance_incBalance, if_pos rfl, getBalance_decBalance, if_neg hnts, hto]
    rfl

/-- Witness for `transfer_c1_amended`: the spec's Scenario 1
(A = 1000.00, B = 1500.00, transfer 100.00 gives 900.00 and 1600.00). -/
theorem transfer_c1_witness :
    (TransferBalance noFaults [⟨1, "A", "a", 1000⟩, ⟨2, "B", "b", 1500⟩] 1 2 100).2
      = none ∧
    getBalance
        (TransferBalance noFaults [⟨1, "A", "a", 1000⟩, ⟨2, "B", "b", 1500⟩] 1 2 100).1 1
      = some (1000 - 100) ∧
    getBalance
        (TransferBalance noFaults [⟨1, "A", "a", 1000⟩, ⟨2, "B", "b", 1500⟩] 1 2 100).1 2
      = some (1500 + 100) ∧
    (1000 - 100) + (1500 + 100) = (1000 : Int) + 1500 :=
  transfer_c1_amended [⟨1, "A", "a", 1000⟩, ⟨2, "B", "b", 1500⟩] 1 2 100 1000 1500
    (by decide) (by decide) (by decide) (by decide)

/-- C2: when the source account exists and its balance is below the
requested amount, the call fails with the insufficient-balance error
carrying the available and requested amounts, and the store is returned
unchanged (no writes). -/
theorem transfer_c2_insufficient (db : Store) (fromID toID : Int) (amount sb : Int)
    (hfrom : getBalance db fromID = some sb) (hlt : sb < amount) :
    TransferBalance noFaults db fromID toID amount
      = (db, some (TransferError.insufficientBalance sb amount)) := by
  simp [TransferBalance, noFaults, hfrom, hlt]

/-- Witness for `transfer_c2_insufficient`: the spec's Scenario 2
(A = 900.00, request 10000.00). -/
theorem transfer_c2_witness :
    TransferBalance noFaults [⟨1, "A", "a", 900⟩, ⟨2, "B", "b", 1500⟩] 1 2 10000
      = ([⟨1, "A", "a", 900⟩, ⟨2, "B", "b", 1500⟩],
          some (TransferError.insufficientBalance 900 10000)) :=
  transfer_c2_insufficient [⟨1, "A", "a", 900⟩, ⟨2, "B", "b", 1500⟩] 1 2 10000 900
    (by decide) (by decide)

/-- C3: whatever infrastructure faults occur (begin, read, either update,
commit) and whatever the validation outcome, every run of
`TransferBalance` that returns an error leaves the store exactly as it was
before the call: the deferred rollback runs on every non-commit exit path
and no partial debit or credit persists. -/
theorem transfer_c3_rollback (f : Fault) (db : Store) (fromID toID : Int)
    (amount : Int) (e : TransferError)
    (h : (TransferBalance f db fromID toID amount).2 = some e) :
    (TransferBalance f db fromID toID amount).1 = db :=
  TransferBalance_rollback f db fromID toID amount (by simp [h])

/-- Witness for `transfer_c3_rollback`: a failing read (missing source id 1)
leaves the one-row store untouched. -/
theorem transfer_c3_witness :
    (TransferBalance noFaults [⟨2, "B", "b", 5⟩] 1 2 3).1 = [⟨2, "B", "b", 5⟩] :=
  transfer_c3_rollback noFaults [⟨2, "B", "b", 5⟩] 1 2 3
    TransferError.getSenderFailed (by decide)

/-- C4: as frozen the claim covers every amount argument, but the code never
validates the amount; a negative amount passes the `senderBalance < amount`
check and the credit then drives the destination negative.  Concrete input:
both balances 0, `TransferBalance(1, 2, -5)` leaves account 2 at -5. -/
theorem transfer_c4_cex :
    allNonneg [⟨1, "A", "a", 0⟩, ⟨2, "B", "b", 0⟩] ∧
    ¬ allNonneg (TransferBalance noFaults [⟨1, "A", "a", 0⟩, ⟨2, "B", "b", 0⟩] 1 2 (-5)).1 := by
  decide

/-- C4 (amended with `0 ≤ amount`): for a store whose ids are unique (the
primary-key constraint) and whose balances are all non-negative, any call
with a non-negative amount — succeeding or failing, under any fault
schedule — leaves every balance non-negative. -/
theorem transfer_c4_amended (f : Fault) (db : Store) (fromID toID : Int) (amount : Int)
    (hnd : (db.map Account.id).Nodup) (ha : 0 ≤ amount) (hpos : allNonneg db) :
    allNonneg (TransferBalance f db fromID toID amount).1 := by
  by_cases h : (TransferBalance f db fromID toID amount).2 = none
  · obtain ⟨sb, hsb, hsuff, hres⟩ := TransferBalance_success f db fromID toID amount h
    rw [hres]
    intro u hu
    simp only [incBalance, decBalance, List.map_map] at hu
    rcases List.mem_map.1 hu with ⟨w, hw, rfl⟩
    have hwpos : 0 ≤ w.balance := hpos w hw
    simp only [Function.comp_apply]
    by_cases hwf : w.id = fromID
    · have hwb : getBalance db w.id = some w.balance :=
        getBalance_of_mem_nodup db w hnd hw
      rw [hwf, hsb] at hwb
      have hwb2 : w.balance = sb := (Option.some.inj hwb).symm
      rw [if_pos hwf]
      by_cases hwt : w.id = toID
      · rw [if_pos (show ({ w with balance := w.balance - amount } : Account).id = toID from hwt)]
        show 0 ≤ w.balance - amount + amount
        omega
      · rw [if_neg (show ¬ ({ w with balance := w.balance - amount } : Account).id = toID from hwt)]
        show 0 ≤ w.balance - amount
        omega
    · rw [if_neg hwf]
      by_cases hwt : w.id = toID
      · rw [if_pos hwt]
        show 0 ≤ w.balance + amount
        omega
      · rw [if_neg hwt]
        exact hwpos
  · rw [TransferBalance_rollback f db fromID toID amount h]
    exact hpos

/-- Witness for `transfer_c4_amended`: a non-negative store stays
non-negative through a successful transfer. -/
theorem transfer_c4_witness :
    allNonneg (TransferBalance noFaults [⟨1, "A", "a", 100⟩] 1 2 10).1 :=
  transfer_c4_amended noFaults [⟨1, "A", "a", 100⟩] 1 2 10
    (by decide) (by decide) (by decide)

/-- C5: the code contains no amount validation at all.  Evaluating the code
at the claim's own Scenario-3 style input: with accounts 1 (balance 100)
and 2 (balance 50), `TransferBalance(1, 2, -5)` does not fail with any
invalid-amount error — it reads and writes the store and succeeds, crediting
the source by 5 and debiting the destination by 5. -/
theorem transfer_c5_code_eval :
    TransferBalance noFaults [⟨1, "A", "a", 100⟩, ⟨2, "B", "b", 50⟩] 1 2 (-5)
      = ([⟨1, "A", "a", 105⟩, ⟨2, "B", "b", 45⟩], none) ∧
    TransferBalance noFaults [⟨1, "A", "a", 100⟩, ⟨2, "B", "b", 50⟩] 1 2 0
      = ([⟨1, "A", "a", 100⟩, ⟨2, "B", "b", 50⟩], none) := by
  decide

/-- C6: as frozen the claim also covers a missing destination, but the
credit `UPDATE` simply matches zero rows and reports no error, so the call
succeeds while the source has been debited.  Concrete input: store holding
only account 1 (balance 100), `TransferBalance(1, 2, 10)` returns success
and account 1 ends at 90. -/
theorem transfer_c6_cex :
    getBalance [⟨1, "A", "a", 100⟩] 2 = none ∧
    (TransferBalance noFaults [⟨1, "A", "a", 100⟩] 1 2 10).2 = none ∧
    getBalance (TransferBalance noFaults [⟨1, "A", "a", 100⟩] 1 2 10).1 1 = some 90 := by
  decide

/-- C6 (amended to the source account only): when the source account does
not exist, the sender-balance read finds no row, the call fails with the
sender-read error (the code's account-not-found case), and the store is
unchanged. -/
theorem transfer_c6_amended (db : Store) (fromID toID : Int) (amount : Int)
    (h : getBalance db fromID = none) :
    TransferBalance noFaults db fromID toID amount
      = (db, some TransferError.getSenderFailed) := by
  simp [TransferBalance, noFaults, h]

/-- Witness for `transfer_c6_amended`: the spec's Scenario 4 shape, a
missing source id. -/
theorem transfer_c6_witness :
    TransferBalance noFaults [⟨2, "B", "b", 1500⟩] 7 2 10
      = ([⟨2, "B", "b", 1500⟩], some TransferError.getSenderFailed) :=
  transfer_c6_amended [⟨2, "B", "b", 1500⟩] 7 2 10 (by decide)

/-- C7: when source and destination are the same existing account, the
sufficient-funds check is still enforced (failing with the
insufficient-balance error when the balance is below the amount), and when
it passes the call succeeds with net zero effect: the store — in particular
that account's balance — is exactly as before. -/
theorem transfer_c7_self (db : Store) (id : Int) (amount sb : Int)
    (h : getBalance db id = some sb) :
    (sb < amount →
      TransferBalance noFaults db id id amount
        = (db, some (TransferError.insufficientBalance sb amount))) ∧
    (amount ≤ sb →
      TransferBalance noFaults db id id amount = (db, none)) := by
  constructor
  · intro hlt
    simp [TransferBalance, noFaults, h, hlt]
  · intro hle
    simp [TransferBalance, noFaults, h, not_lt.2 hle, incBalance_decBalance_cancel]

/-- Witness for `transfer_c7_self`: a self-transfer of 4 on a balance of 10
succeeds and changes nothing. -/
theorem transfer_c7_witness :
    TransferBalance noFaults [⟨1, "A", "a", 10⟩] 1 1 4 = ([⟨1, "A", "a", 10⟩], none) :=
  (transfer_c7_self [⟨1, "A", "a", 10⟩] 1 4 10 (by decide)).2 (by decide)

/-- C8: frame property of every run, under any fault schedule.  The row
count is preserved (no account created or deleted); every row keeps its
id, name and email; a row whose id is neither the source nor the
destination keeps its balance; every error run persists zero mutations;
and a successful run produces exactly the debit-then-credit image of the
store. -/
theorem transfer_c8_frame (f : Fault) (db : Store) (fromID toID : Int)
    (amount : Int) (i : Nat) (u u2 : Account)
    (h1 : db[i]? = some u)
    (h2 : ((TransferBalance f db fromID toID amount).1)[i]? = some u2) :
    ((TransferBalance f db fromID toID amount).1).length = db.length ∧
    u2.id = u.id ∧ u2.name = u.name ∧ u2.email = u.email ∧
    (u.id ≠ fromID → u.id ≠ toID → u2.balance = u.balance) ∧
    (∀ e, (TransferBalance f db fromID toID amount).2 = some e →
      (TransferBalance f db fromID toID amount).1 = db) ∧
    ((TransferBalance f db fromID toID amount).2 = none →
      (TransferBalance f db fromID toID amount).1
        = incBalance (decBalance db amount fromID) amount toID) := by
  by_cases h : (TransferBalance f db fromID toID amount).2 = none
  · obtain ⟨sb, hsb, hsuff, hres⟩ := TransferBalance_success f db fromID toID amount h
    rw [hres] at h2 ⊢
    have hu2 : u2 = (fun v => if v.id = toID then { v with balance := v.balance + amount } else v)
        ((fun v => if v.id = fromID then { v with balance := v.balance - amount } else v) u) := by
      simp only [incBalance, decBalance, List.map_map, List.getElem?_map, h1,
        Option.map_some, Function.comp_apply] at h2
      exact (Option.some.inj h2).symm
    refine ⟨by simp [incBalance, decBalance], ?_, ?_, ?_, ?_, ?_, fun _ => rfl⟩
    · rw [hu2]; beta_reduce; split_ifs <;> rfl
    · rw [hu2]; beta_reduce; split_ifs <;> rfl
    · rw [hu2]; beta_reduce; split_ifs <;> rfl
    · intro hf ht
      rw [hu2]; beta_reduce
      rw [if_neg hf, if_neg ht]
    · intro e he
      exact absurd (h.symm.trans he) (by simp)
  · have hdb := TransferBalance_rollback f db fromID toID amount h
    rw [hdb] at h2 ⊢
    have : u = u2 := Option.some.inj (h1.symm.trans h2)
    subst this
    exact ⟨rfl, rfl, rfl, rfl, fun _ _ => rfl, fun _ _ => rfl, fun hn => absurd hn h⟩

/-- A three-account store and its untouched third row, used to witness the
frame property. -/
def demoStore : Store := [⟨1, "A", "a", 100⟩, ⟨2, "B", "b", 50⟩, ⟨3, "C", "c", 7⟩]

/-- The third row of `demoStore`. -/
def demoAcc : Account := ⟨3, "C", "c", 7⟩

/-- Witness for `transfer_c8_frame`: a successful `1 → 2` transfer over
`demoStore` preserves the row count, the untouched account 3 (id and
balance), and equals exactly the debit-then-credit image. -/
theorem transfer_c8_witness :
    ((TransferBalance noFaults demoStore 1 2 10).1).length = demoStore.length ∧
    demoAcc.id = demoAcc.id ∧
    demoAcc.balance = demoAcc.balance ∧
    (TransferBalance noFaults demoStore 1 2 10).1
      = incBalance (decBalance demoStore 10 1) 10 2 := by
  have H := transfer_c8_frame noFaults demoStore 1 2 10 2 demoAcc demoAcc
    (by decide) (by decide)
  exact ⟨H.1, H.2.1, H.2.2.2.2.1 (by decide) (by decide), H.2.2.2.2.2.2 (by decide)⟩

/-- C10: when the source exists with a sufficient balance but the
destination id matches no row, the call nevertheless succeeds: only the
debit takes effect (the credit update is the identity on the store), the
source balance drops by the amount, and the total of all balances drops by
the amount. -/
theorem transfer_c10_missing_dest (db : Store) (fromID toID : Int) (amount sb : Int)
    (hnd : (db.map Account.id).Nodup)
    (hfrom : getBalance db fromID = some sb)
    (hto : getBalance db toID = none)
    (hsuff : amount ≤ sb) :
    (TransferBalance noFaults db fromID toID amount).2 = none ∧
    (TransferBalance noFaults db fromID toID amount).1 = decBalance db amount fromID ∧
    getBalance (TransferBalance noFaults db fromID toID amount).1 fromID
      = some (sb - amount) ∧
    totalBalance (TransferBalance noFaults db fromID toID amount).1
      = totalBalance db - amount := by
  have hres : TransferBalance noFaults db fromID toID amount
      = (incBalance (decBalance db amount fromID) amount toID, none) := by
    simp [TransferBalance, noFaults, hfrom, not_lt.2 hsuff]
  have hnotto : ∀ u ∈ db, u.id ≠ toID := (getBalance_eq_none_iff db toID).1 hto
  have hnone : ∀ u ∈ decBalance db amount fromID, u.id ≠ toID := by
    intro u hu
    rcases List.mem_map.1 hu with ⟨v, hv, rfl⟩
    have hv2 := hnotto v hv
    by_cases hvf : v.id = fromID
    · rw [if_pos hvf]
      exact hv2
    · rw [if_neg hvf]
      exact hv2
  have hinc : incBalance (decBalance db amount fromID) amount toID
      = decBalance db amount fromID :=
    incBalance_not_found _ _ _ hnone
  have hneq : fromID ≠ toID := by
    intro hft
    rw [hft, hto] at hfrom
    cases hfrom
  have hmem : ∃ u ∈ db, u.id = fromID := by
    by_contra hcon
    push_neg at hcon
    rw [(getBalance_eq_none_iff db fromID).2 hcon] at hfrom
    cases hfrom
  refine ⟨by rw [hres], by rw [hres]; exact hinc, ?_, ?_⟩
  · rw [hres]
    show getBalance (incBalance (decBalance db amount fromID) amount toID) fromID
      = some (sb - amount)
    rw [getBalance_incBalance, if_neg hneq, getBalance_decBalance, if_pos rfl, hfrom]
    rfl
  · rw [hres]
    show totalBalance (incBalance (decBalance db amount fromID) amount toID)
      = totalBalance db - amount
    rw [hinc]
    exact totalBalance_decBalance db amount fromID hnd hmem

/-- Witness for `transfer_c10_missing_dest`: one account (id 1, balance
100), transfer of 10 to the absent id 2 succeeds and loses 10 from the
store total. -/
theorem transfer_c10_witness :
    (TransferBalance noFaults [⟨1, "A", "a", 100⟩] 1 2 10).2 = none ∧
    (TransferBalance noFaults [⟨1, "A", "a", 100⟩] 1 2 10).1
      = decBalance [⟨1, "A", "a", 100⟩] 10 1 ∧
    getBalance (TransferBalance noFaults [⟨1, "A", "a", 100⟩] 1 2 10).1 1
      = some (100 - 10) ∧
    totalBalance (TransferBalance noFaults [⟨1, "A", "a", 100⟩] 1 2 10).1
      = totalBalance [⟨1, "A", "a", 100⟩] - 10 :=
  transfer_c10_missing_dest [⟨1, "A", "a", 100⟩] 1 2 10 100
    (by decide) (by decide) (by decide) (by decide)
